import Mathlib

/-!
Verification of the devenv configuration-resolution pipeline.

This file shallowly embeds the Python modules
`devenv/utils/config.py`, `devenv/utils/hooks.py`,
`devenv/utils/devcontainer.py` and `devenv/utils/modules.py`
and proves (or refutes) the frozen specification claims about them.

Modelling conventions:
* Python dicts are insertion-ordered association lists `List (String × α)`
  with `dget`/`dset`/`dupdate` mirroring `d[k]`, `d[k] = v`, `d.update(o)`.
* Python's nondeterministic `list(set(xs))` is a parameter
  `setList : List String → List String` constrained by `SetListSpec`
  (no duplicates, same membership as `xs`).
* The filesystem consulted by the hook system is an explicit finite map
  from path strings to entries carrying a `stat` mode.
* Heap-allocated nested dicts (`remoteEnv` / `features` of a devcontainer
  configuration) are modelled by indices into an explicit `Store`, so the
  shallow-copy aliasing of `_merge_module_config` is observable.
-/

set_option maxRecDepth 4096

namespace Devenv

/-- Lookup in a Python dict (first binding of the key; real dicts have
unique keys, which all embedded code maintains). -/
def dget {α : Type} (d : List (String × α)) (k : String) : Option α :=
  (d.find? (fun p => p.1 == k)).map (·.2)

/-- `k in d` for a Python dict. -/
def dcontains {α : Type} (d : List (String × α)) (k : String) : Bool :=
  d.any (fun p => p.1 == k)

/-- `d[k] = v` for a Python dict: replaces the value in place if the key is
present (keeping insertion order), otherwise appends the new binding. -/
def dset {α : Type} (d : List (String × α)) (k : String) (v : α) :
    List (String × α) :=
  if d.any (fun p => p.1 == k) then
    d.map (fun p => if p.1 == k then (k, v) else p)
  else d ++ [(k, v)]

/-- `d.update(other)` for Python dicts: sets every binding of `other` into
`d`, in `other`'s order. -/
def dupdate {α : Type} (d other : List (String × α)) : List (String × α) :=
  other.foldl (fun acc p => dset acc p.1 p.2) d

/-- Python `sep.join(items)`. -/
def joinSep (sep : String) : List String → String
  | [] => ""
  | [a] => a
  | a :: b :: rest => a ++ sep ++ joinSep sep (b :: rest)

/-- Values stored in the embedded configuration dictionaries.  The shapes
cover everything the embedded code reads or writes; ill-typed YAML values
would make the Python source raise, and are outside the modelled domain. -/
inductive PyVal where
  | vStr (s : String)
  | vInt (n : Int)
  | vStrList (l : List String)
  | vPlugins (m : List (String × List String))
  | vPairs (m : List (String × String))
  deriving DecidableEq, Repr

/-- Configuration dictionary, as handled by `config.py`. -/
abbrev Dict := List (String × PyVal)

/-- Python truthiness of the embedded values (`if not config[field]`). -/
def pyTruthy : PyVal → Bool
  | .vStr s => !s.isEmpty
  | .vInt n => n != 0
  | .vStrList l => !l.isEmpty
  | .vPlugins m => !m.isEmpty
  | .vPairs m => !m.isEmpty

/-- Read a value expected to be a string (the embedded code only applies
this where the Python source would require a `str`). -/
def asStr : PyVal → String
  | .vStr s => s
  | _ => ""

/-! ### config.py -/

/-- `generate_default_config` (config.py): name and fixed base image, plus
the ports only when a non-empty list is passed.  `Path(project_path)
.resolve().name` is abstracted to the already-resolved directory basename
`projectName`; path resolution itself is filesystem behaviour outside the
pipeline under specification. -/
def generate_default_config (projectName : String)
    (ports : Option (List String)) : Dict :=
  let config : Dict :=
    [("name", .vStr projectName),
     ("image", .vStr "mcr.microsoft.com/devcontainers/base:ubuntu-24.04")]
  match ports with
  | some l => if l.isEmpty then config else config ++ [("ports", .vStrList l)]
  | none => config

/-- `merged.setdefault('plugins', \x7b\x7d)[ide_type] = pl` (config.py):
inserts an empty plugin table if absent, then assigns the editor's list. -/
def setPlugins (d : Dict) (ide : String) (pl : List String) : Dict :=
  match dget d "plugins" with
  | some (.vPlugins m) => dset d "plugins" (.vPlugins (dset m ide pl))
  | some _ => d
  | none => dset d "plugins" (.vPlugins (dset ([] : List (String × List String)) ide pl))

/-- Validity of an enumeration standing for Python's `list(set(xs))`:
the result has no duplicates and exactly the elements of `xs`.  CPython's
actual order depends on string hashing (randomised per process), so the
embedding quantifies over every enumeration satisfying this contract. -/
def SetListSpec (f : List String → List String) : Prop :=
  ∀ xs : List String, (f xs).Nodup ∧ ∀ a, a ∈ f xs ↔ a ∈ xs

/-- `merge_configs` (config.py): defaults, overlaid by the whole project
dict, then only the user plugins (per editor, `list(set(project + user))`
when the editor also has project plugins) and `hooks_dir`/`dotfiles_dir`.
`setList` stands for the `list(set(·))` enumeration. -/
def merge_configs (setList : List String → List String)
    (project_config user_config : Option Dict) (projectName : String) : Dict :=
  let merged := generate_default_config projectName none
  let merged := match project_config with
    | some pc => dupdate merged pc
    | none => merged
  match user_config with
  | none => merged
  | some uc =>
    let merged := match dget uc "plugins" with
      | some (.vPlugins user_plugins) =>
        let project_plugins : List (String × List String) :=
          match dget merged "plugins" with
          | some (.vPlugins m) => m
          | _ => []
        user_plugins.foldl (fun acc idePl =>
          match dget project_plugins idePl.1 with
          | some pl => setPlugins acc idePl.1 (setList (pl ++ idePl.2))
          | none => setPlugins acc idePl.1 idePl.2) merged
      | _ => merged
    let merged := match dget uc "hooks_dir" with
      | some v => dset merged "hooks_dir" v
      | none => merged
    match dget uc "dotfiles_dir" with
    | some v => dset merged "dotfiles_dir" v
    | none => merged

/-- `name.replace("-", "").replace("_", "")` (config.py). -/
def stripSeparators (s : String) : String :=
  String.mk (s.data.filter (fun c => c ≠ '-' ∧ c ≠ '_'))

/-- Python `str.isalnum`, restricted to ASCII code points (for which it is
exactly `[0-9A-Za-z]` and the empty string is not alphanumeric).  Python
additionally accepts non-ASCII Unicode alphanumerics; theorems that
quantify over names therefore restrict to ASCII strings. -/
def pyIsAlnum (s : String) : Bool :=
  !s.isEmpty && s.data.all Char.isAlphanum

/-- Message of the required-field `ValueError` of `validate_config`. -/
def requiredErr (field : String) : String :=
  "Required field '" ++ field ++ "' is missing or empty in configuration"

/-- Message of the invalid-name `ValueError` of `validate_config`. -/
def invalidNameErr (name : String) : String :=
  "Project name '" ++ name ++ "' contains invalid characters. " ++
    "Use only alphanumeric, hyphens, and underscores."

/-- `validate_config` (config.py): the required-field loop over
`["name", "image"]` in order, then the filesystem-safety check on the
name.  A present, truthy, non-string name would make the Python source
raise `AttributeError` at `.replace`; that exit is modelled as an error
as well. -/
def validate_config (config : Dict) : Except String Dict :=
  match dget config "name" with
  | none => .error (requiredErr "name")
  | some nv =>
    if !pyTruthy nv then .error (requiredErr "name")
    else match dget config "image" with
      | none => .error (requiredErr "image")
      | some iv =>
        if !pyTruthy iv then .error (requiredErr "image")
        else match nv with
          | .vStr name =>
            if pyIsAlnum (stripSeparators name) then .ok config
            else .error (invalidNameErr name)
          | _ => .error "AttributeError: replace"

/-- One valid enumeration for `list(set(xs))`: keep the first occurrence
of each element, in first-seen order (`seen` accumulates emitted
elements). -/
def dedupFirstAux (seen : List String) : List String → List String
  | [] => []
  | a :: rest =>
    if a ∈ seen then dedupFirstAux seen rest
    else a :: dedupFirstAux (a :: seen) rest

/-- First-seen-order deduplication. -/
def dedupFirst (xs : List String) : List String := dedupFirstAux [] xs

/-- Another valid enumeration for `list(set(xs))`: the reverse of the
first-seen order. -/
def revDedup (xs : List String) : List String := (dedupFirst xs).reverse

/-! ### hooks.py -/

/-- A filesystem entry as observed through `os.stat` / `os.path.isfile`:
a regular file or a directory, each carrying its `st_mode` permission
bits. -/
inductive FSEntry where
  | file (mode : Nat)
  | dir (mode : Nat)
  deriving DecidableEq, Repr

/-- The filesystem consulted by the hook system: a finite map from
(normalised, separator-free-component) path strings to entries; absent
paths do not exist. -/
abbrev FS := List (String × FSEntry)

/-- `os.stat(p).st_mode`, as `none` when the path is missing (the Python
call raises `OSError` there, which `is_executable` catches). -/
def osStat (fs : FS) (p : String) : Option Nat :=
  match dget fs p with
  | some (.file m) => some m
  | some (.dir m) => some m
  | none => none

/-- `os.path.isfile`. -/
def osPathIsfile (fs : FS) (p : String) : Bool :=
  match dget fs p with
  | some (.file _) => true
  | _ => false

/-- `is_executable` (hooks.py): `bool(os.stat(p).st_mode & stat.S_IEXEC)`
with the `OSError`/`FileNotFoundError` handler returning `False`.
`stat.S_IEXEC` is the owner-execute bit `0o100`. -/
def is_executable (fs : FS) (p : String) : Bool :=
  match osStat fs p with
  | some m => Nat.land m 0o100 != 0
  | none => false

/-- `os.path.join(home_dir, ".config", "devenv", "hooks", hook_name)`,
for components not starting with a separator. -/
def userHookPath (home hook : String) : String :=
  home ++ "/.config/devenv/hooks/" ++ hook

/-- `os.path.join(project_path, ".devenv", "hooks", hook_name)`. -/
def projectHookPath (proj hook : String) : String :=
  proj ++ "/.devenv/hooks/" ++ hook

/-- `find_hook_scripts` (hooks.py): the user-tier candidate is checked
first, the project-tier candidate second; each is kept only when it is a
regular file and `is_executable`.  The Python `home_dir=None` default
(expanding `~`) is modelled by passing the home directory explicitly. -/
def find_hook_scripts (fs : FS) (hook_name project_path home_dir : String) :
    List (String × String) :=
  let hooks : List (String × String) := []
  let user_hook_path := userHookPath home_dir hook_name
  let hooks :=
    if osPathIsfile fs user_hook_path && is_executable fs user_hook_path then
      hooks ++ [("user", user_hook_path)]
    else hooks
  let project_hook_path := projectHookPath project_path hook_name
  if osPathIsfile fs project_hook_path && is_executable fs project_hook_path then
    hooks ++ [("project", project_hook_path)]
  else hooks

/-- The per-hook segment of `generate_hook_command`: the triple-quoted
f-string after `.strip()` keeps the interior newline and the eight spaces
of indentation between the `echo` line and the `source`/execute line. -/
def hookSegment (hook_name : String) (sp : String × String) : String :=
  "echo \"Executing " ++ sp.1 ++ " " ++ hook_name ++ " hook...\"" ++
    "\n        source ~/.bashrc && " ++ sp.2

/-- `generate_hook_command` (hooks.py): `None` when no hooks were found,
otherwise the per-hook segments joined with `" && "`. -/
def generate_hook_command (fs : FS) (hook_name project_path home_dir : String) :
    Option String :=
  let hook_scripts := find_hook_scripts fs hook_name project_path home_dir
  if hook_scripts.isEmpty then none
  else some (joinSep " && " (hook_scripts.map (hookSegment hook_name)))

/-- `generate_post_create_command_with_hooks` (hooks.py): mise bootstrap,
shell activation, tool install, optional dotfiles copy, optional hook
command, optional user command, joined with `" && "`. -/
def generate_post_create_command_with_hooks (fs : FS) (merged_config : Dict)
    (project_path home_dir : String) : String :=
  let commands : List String :=
    ["mkdir -p ~/.local/bin",
     "curl -fsSL https://mise.run | sh",
     "echo 'eval \"$(~/.local/bin/mise activate bash)\"' >> ~/.bashrc",
     "echo 'eval \"$(~/.local/bin/mise activate zsh)\"' >> ~/.zshrc",
     "~/.local/bin/mise install || true"]
  let commands :=
    if dcontains merged_config "dotfiles_dir" then
      commands ++ ["cp -r /tmp/devenv-dotfiles/. ~/"]
    else commands
  let commands :=
    match generate_hook_command fs "post_create" project_path home_dir with
    | some hc => commands ++ [hc]
    | none => commands
  let commands :=
    match dget merged_config "post_create_command" with
    | some v => commands ++ ["source ~/.bashrc && " ++ asStr v]
    | none => commands
  joinSep " && " commands

/-! ### devcontainer.py -/

/-- Digit tail of Python `int(str)` after the first digit: further digits,
with single underscores allowed only between digits. -/
def pyDigitsCore : List Char → Nat → Option Nat
  | [], acc => some acc
  | ['_'], _ => none
  | '_' :: c :: rest, acc =>
    if c.isDigit then pyDigitsCore rest (acc * 10 + (c.toNat - 48)) else none
  | c :: rest, acc =>
    if c.isDigit then pyDigitsCore rest (acc * 10 + (c.toNat - 48)) else none

/-- Digit run of Python `int(str)`: must start with a digit (not an
underscore). -/
def pyDigits : List Char → Option Nat
  | [] => none
  | c :: rest =>
    if c.isDigit then pyDigitsCore rest (c.toNat - 48) else none

/-- ASCII whitespace stripped by Python `int(str)`. -/
def pySpace (c : Char) : Bool :=
  c == ' ' || c == '\t' || c == '\n' || c == '\x0d' || c == '\x0b' || c == '\x0c'

/-- Python `int(str)` for base-10 ASCII inputs: surrounding whitespace is
stripped, an optional sign is allowed, then a digit run with interior
underscores; `none` models the `ValueError` exit.  (Python additionally
accepts non-ASCII Unicode digits and whitespace, outside the modelled
domain.) -/
def pyInt (s : String) : Option Int :=
  let cs := (s.data.dropWhile pySpace).reverse.dropWhile pySpace |>.reverse
  match cs with
  | [] => none
  | c :: rest =>
    if c = '-' then (pyDigits rest).map (fun n => -(n : Int))
    else if c = '+' then (pyDigits rest).map (fun n => (n : Int))
    else (pyDigits cs).map (fun n => (n : Int))

/-- `port_mapping.split(":")[0]`: the prefix before the first colon. -/
def beforeColon (s : String) : String :=
  String.mk (s.data.takeWhile (fun c => c ≠ ':'))

/-- `extract_ports_from_config` (devcontainer.py): for each entry take the
host side before a colon when present, otherwise the whole entry; keep
the successfully parsed integers in order and skip the rest.  `if not
ports` maps `None` (and the empty list, for which the loop is vacuous)
to `[]`. -/
def extract_ports_from_config (ports : Option (List String)) : List Int :=
  match ports with
  | none => []
  | some l =>
    l.foldl (fun acc port_mapping =>
      if port_mapping.data.contains ':' then
        match pyInt (beforeColon port_mapping) with
        | some n => acc ++ [n]
        | none => acc
      else
        match pyInt port_mapping with
        | some n => acc ++ [n]
        | none => acc) []

/-- The `postCreateCommand` assembled by `generate_devcontainer_json`
(devcontainer.py lines 157–178): mise bootstrap, shell activation for
bash and zsh, tool install, optional dotfiles copy, optional user
command, joined with `" && "`.  No hook command is included — the
generator never consults the hook system.  Module application
(`apply_modules_to_devcontainer`, modelled below) may later append module
commands when modules were requested. -/
def generate_devcontainer_postCreateCommand (merged_config : Dict) : String :=
  let post_create_commands : List String :=
    ["curl -fsSL https://mise.run | sh",
     "echo 'eval \"$(~/.local/bin/mise activate bash)\"' >> ~/.bashrc",
     "echo 'eval \"$(~/.local/bin/mise activate zsh)\"' >> ~/.zshrc",
     "~/.local/bin/mise install"]
  let post_create_commands :=
    if dcontains merged_config "dotfiles_dir" then
      post_create_commands ++ ["cp -r /tmp/devenv-dotfiles/. ~/"]
    else post_create_commands
  let post_create_commands :=
    match dget merged_config "post_create_command" with
    | some v => post_create_commands ++ [asStr v]
    | none => post_create_commands
  joinSep " && " post_create_commands

/-! ### modules.py -/

/-- A mount specification `\x7bsource, target, type\x7d`. -/
structure Mount where
  source : String
  target : String
  type : String
  deriving DecidableEq, Repr

/-- A primitive feature-option value (the catalog uses booleans and
strings). -/
inductive Prim where
  | pBool (b : Bool)
  | pStr (s : String)
  deriving DecidableEq, Repr

/-- Options dictionary of one devcontainer feature. -/
abbrev FeatOpts := List (String × Prim)

/-- A module catalog entry (modules.py): optional configuration
fragments.  Absent keys are `none`. -/
structure Module where
  description : String
  run_args : Option (List String) := none
  mounts : Option (List Mount) := none
  environment : Option (List (String × String)) := none
  features : Option (List (String × FeatOpts)) := none
  post_create_commands : Option (List String) := none
  deriving DecidableEq, Repr

/-- `BUILTIN_MODULES` (modules.py), verbatim. -/
def BUILTIN_MODULES : List (String × Module) :=
  [("claude-code",
    { description := "Integrates Claude Code for AI-assisted development"
      mounts := some [⟨"$\x7blocalEnv:HOME\x7d/.claude", "/home/vscode/.claude", "bind"⟩]
      environment := some [("CLAUDE_CODE_ENABLED", "true")]
      post_create_commands := some ["npm install -g @anthropic/claude-code"] }),
   ("docker-in-docker",
    { description := "Allows running Docker commands inside the container"
      features := some
        [("ghcr.io/devcontainers/features/docker-in-docker:2",
          [("moby", .pBool true), ("dockerDashComposeVersion", .pStr "v2")])]
      mounts := some [⟨"/var/run/docker.sock", "/var/run/docker-host.sock", "bind"⟩] })]

/-- Python's lexicographic string order, on code-point lists. -/
def charListLe : List Char → List Char → Bool
  | [], _ => true
  | _ :: _, [] => false
  | a :: as, b :: bs =>
    if a == b then charListLe as bs else Nat.blt a.toNat b.toNat

/-- Python `a <= b` on strings (code-point lexicographic). -/
def pyStrLe (a b : String) : Bool :=
  charListLe a.data b.data

/-- Insertion into a string-sorted list, for Python `sorted`. -/
def sortedInsert (a : String) : List String → List String
  | [] => [a]
  | b :: rest => if pyStrLe a b then a :: b :: rest else b :: sortedInsert a rest

/-- Python `sorted` on strings (insertion sort — stability is irrelevant
on the deduplicated key set it is applied to). -/
def pySorted (l : List String) : List String :=
  l.foldr sortedInsert []

/-- `validate_modules` (modules.py): collect every requested name missing
from the catalog key set, in request order; fail with a message listing
them and the sorted catalog when any exist, otherwise return the names. -/
def validate_modules (module_names : List String) : Except String (List String) :=
  let available_modules := BUILTIN_MODULES.map (·.1)
  let invalid_modules :=
    module_names.filter (fun n => !available_modules.contains n)
  if !invalid_modules.isEmpty then
    .error ("Unknown modules: " ++ joinSep ", " invalid_modules ++
      ". Available modules: " ++ joinSep ", " (pySorted available_modules))
  else .ok module_names

/-- `get_module` (modules.py): catalog lookup; the shallow `.copy()` is
the identity on the immutable record.  `KeyError` is modelled as an
error value. -/
def get_module (name : String) : Except String Module :=
  match dget BUILTIN_MODULES name with
  | none =>
    .error ("Module '" ++ name ++ "' not found. Available modules: " ++
      joinSep ", " (BUILTIN_MODULES.map (·.1)))
  | some m => .ok m

/-- The heap of nested, aliasable dicts of a devcontainer configuration:
`remoteEnv` and `features` dicts live here and are referred to by index,
so that in-place `dict.update` calls on shared references are
observable. -/
structure Store where
  envs : List (List (String × String))
  feats : List (List (String × FeatOpts))
  deriving DecidableEq, Repr

/-- The top-level devcontainer dict as touched by `_merge_module_config`:
absent keys are `none`; `remoteEnv`/`features` hold references into the
`Store`.  `config.copy()` copies this record only (nested references are
shared), and keys the merge never touches are copied unchanged. -/
structure DCConfig where
  runArgs : Option (List String) := none
  mounts : Option (List Mount) := none
  remoteEnv : Option Nat := none
  features : Option Nat := none
  postCreateCommand : Option String := none
  deriving DecidableEq, Repr

/-- Dereference a `remoteEnv` heap cell. -/
def readEnv (st : Store) (r : Nat) : List (String × String) :=
  st.envs.getD r []

/-- Dereference a `features` heap cell. -/
def readFeat (st : Store) (r : Nat) : List (String × FeatOpts) :=
  st.feats.getD r []

/-- References of a configuration point inside the store. -/
def wfConfig (st : Store) (cfg : DCConfig) : Bool :=
  (match cfg.remoteEnv with
   | some r => r < st.envs.length
   | none => true) &&
  (match cfg.features with
   | some r => r < st.feats.length
   | none => true)

/-- The "Merge run arguments" block of `_merge_module_config`
(modules.py): `config["runArgs"] = config.get("runArgs", []) +
module_config["run_args"]` when the module has `run_args`. -/
def mergeRunArgs (cfg : DCConfig) (m : Module) : DCConfig :=
  match m.run_args with
  | some ra => { cfg with runArgs := some (cfg.runArgs.getD [] ++ ra) }
  | none => cfg

/-- The "Merge mounts" block of `_merge_module_config` (modules.py). -/
def mergeMounts (cfg : DCConfig) (m : Module) : DCConfig :=
  match m.mounts with
  | some ms => { cfg with mounts := some (cfg.mounts.getD [] ++ ms) }
  | none => cfg

/-- The "Merge environment variables" block of `_merge_module_config`
(modules.py): `current_env = config.get("remoteEnv", \x7b\x7d)` aliases
the base's nested dict when present, so `current_env.update(...)` is a
store write at the base's reference; when absent a fresh dict is
allocated and `config["remoteEnv"]` points at it. -/
def mergeEnvironment (st : Store) (cfg : DCConfig) (m : Module) :
    Store × DCConfig :=
  match m.environment with
  | some env =>
    match cfg.remoteEnv with
    | some r =>
      ({ st with envs := st.envs.set r (dupdate (readEnv st r) env) }, cfg)
    | none =>
      ({ st with envs := st.envs ++ [dupdate [] env] },
       { cfg with remoteEnv := some st.envs.length })
  | none => (st, cfg)

/-- The "Merge features" block of `_merge_module_config` (modules.py),
analogous to the environment block. -/
def mergeFeatures (st : Store) (cfg : DCConfig) (m : Module) :
    Store × DCConfig :=
  match m.features with
  | some fts =>
    match cfg.features with
    | some r =>
      ({ st with feats := st.feats.set r (dupdate (readFeat st r) fts) }, cfg)
    | none =>
      ({ st with feats := st.feats ++ [dupdate [] fts] },
       { cfg with features := some st.feats.length })
  | none => (st, cfg)

/-- The "Merge post-create commands" block of `_merge_module_config`
(modules.py): append the `" && "`-joined module commands after the
current command text when that text is non-empty (Python truthiness),
else use the module commands alone. -/
def mergePostCreate (st : Store) (cfg : DCConfig) (m : Module) :
    Store × DCConfig :=
  match m.post_create_commands with
  | some cmds =>
    let current_command := cfg.postCreateCommand.getD ""
    let module_commands := joinSep " && " cmds
    if current_command ≠ "" then
      (st,
       { cfg with
         postCreateCommand := some (current_command ++ " && " ++ module_commands) })
    else
      (st, { cfg with postCreateCommand := some module_commands })
  | none => (st, cfg)

/-- `_merge_module_config` (modules.py): the five merge blocks in source
order.  `config = devcontainer_config.copy()` copies only the top-level
dict (the record), so the nested `remoteEnv`/`features` references are
shared with the caller's base configuration. -/
def merge_module_config (st : Store) (cfg : DCConfig) (m : Module) :
    Store × DCConfig :=
  let cfg := mergeRunArgs cfg m
  let cfg := mergeMounts cfg m
  let sc := mergeEnvironment st cfg m
  let sc := mergeFeatures sc.1 sc.2 m
  mergePostCreate sc.1 sc.2 m

/-- `apply_modules_to_devcontainer` (modules.py): empty request returns
the base unchanged; otherwise the names are re-validated and each module
is fetched and merged in caller order; an unknown name is a fatal error
(from `validate_modules`, and from `get_module` were it reached). -/
def apply_modules_to_devcontainer (st : Store) (cfg : DCConfig)
    (module_names : List String) : Except String (Store × DCConfig) :=
  if module_names.isEmpty then .ok (st, cfg)
  else match validate_modules module_names with
    | .error e => .error e
    | .ok _ =>
      module_names.foldlM (fun acc name =>
        match get_module name with
        | .error e => .error e
        | .ok m => .ok (merge_module_config acc.1 acc.2 m)) (st, cfg)

/-! ### Substring machinery (used to state "the message names X") -/

/-- Boolean prefix test on character lists. -/
def isPrefixOfB : List Char → List Char → Bool
  | [], _ => true
  | _ :: _, [] => false
  | a :: as, b :: bs => a == b && isPrefixOfB as bs

/-- Boolean substring test on character lists. -/
def hasSub : List Char → List Char → Bool
  | n, [] => n.isEmpty
  | n, h :: hs => isPrefixOfB n (h :: hs) || hasSub n hs

/-- `needle` occurs as a contiguous substring of `hay`. -/
def strHas (needle hay : String) : Bool :=
  hasSub needle.data hay.data

/-! ### Helper lemmas -/

theorem dget_nil {α : Type} (k : String) :
    dget ([] : List (String × α)) k = none := rfl

theorem dget_cons {α : Type} (x : String × α) (l : List (String × α))
    (k : String) :
    dget (x :: l) k = if x.1 == k then some x.2 else dget l k := by
  cases h : x.1 == k <;> simp [dget, List.find?, h]

theorem dget_append {α : Type} (d e : List (String × α)) (k : String) :
    dget (d ++ e) k = (dget d k).or (dget e k) := by
  rw [dget, dget, List.find?_append]
  cases d.find? (fun p => p.1 == k) <;> simp [dget]

theorem dget_eq_none_of_any_false {α : Type} (d : List (String × α))
    (k : String) (h : d.any (fun p => p.1 == k) = false) :
    dget d k = none := by
  induction d with
  | nil => rfl
  | cons a rest ih =>
    simp only [List.any_cons, Bool.or_eq_false_iff] at h
    rw [dget_cons, h.1]
    simpa using ih h.2

theorem dget_map_replace_self {α : Type} (d : List (String × α))
    (k : String) (v : α) (h : d.any (fun p => p.1 == k) = true) :
    dget (d.map (fun p => if p.1 == k then (k, v) else p)) k = some v := by
  induction d with
  | nil => simp at h
  | cons a rest ih =>
    cases ha : a.1 == k with
    | true =>
      simp only [List.map_cons, ha, if_true]
      rw [dget_cons]
      simp
    | false =>
      have hrest : rest.any (fun p => p.1 == k) = true := by
        simp only [List.any_cons, ha, Bool.false_or] at h
        exact h
      simp only [List.map_cons, ha, Bool.false_eq_true, if_false]
      rw [dget_cons]
      simp only [ha, Bool.false_eq_true, if_false]
      exact ih hrest

theorem dget_map_replace_ne {α : Type} (d : List (String × α))
    (k : String) (v : α) (k' : String) (hk : k' ≠ k) :
    dget (d.map (fun p => if p.1 == k then (k, v) else p)) k' = dget d k' := by
  have hkk : (k == k') = false := beq_eq_false_iff_ne.mpr (Ne.symm hk)
  induction d with
  | nil => rfl
  | cons a rest ih =>
    cases ha : a.1 == k with
    | true =>
      have ha1 : a.1 = k := by simpa using ha
      have ha' : (a.1 == k') = false := by
        rw [ha1]; exact hkk
      simp only [List.map_cons, ha, if_true]
      rw [dget_cons, dget_cons]
      simp only [ha', hkk, Bool.false_eq_true, if_false]
      exact ih
    | false =>
      simp only [List.map_cons, ha, Bool.false_eq_true, if_false]
      rw [dget_cons, dget_cons]
      cases ha' : a.1 == k' with
      | true => simp
      | false => simpa using ih

theorem dget_dset {α : Type} (d : List (String × α)) (k : String) (v : α)
    (k' : String) :
    dget (dset d k v) k' = if k' = k then some v else dget d k' := by
  unfold dset
  cases h : d.any (fun p => p.1 == k) with
  | false =>
    simp only [Bool.false_eq_true, if_false]
    rw [dget_append]
    by_cases hk : k' = k
    · subst hk
      rw [dget_eq_none_of_any_false d k' h, dget_cons]
      simp
    · have hkk : (k == k') = false := beq_eq_false_iff_ne.mpr (Ne.symm hk)
      rw [dget_cons, hkk]
      simp [hk, dget_nil]
  | true =>
    simp only [if_true]
    by_cases hk : k' = k
    · subst hk
      rw [if_pos rfl]
      exact dget_map_replace_self d k' v h
    · rw [if_neg hk]
      exact dget_map_replace_ne d k v k' hk

theorem dget_setPlugins_ne (d : Dict) (ide : String) (pl : List String)
    (k : String) (h : k ≠ "plugins") :
    dget (setPlugins d ide pl) k = dget d k := by
  unfold setPlugins
  cases hd : dget d "plugins" with
  | none => simp [dget_dset, h]
  | some v => cases v <;> simp [dget_dset, h]

theorem isPrefixOfB_append_self (n t : List Char) :
    isPrefixOfB n (n ++ t) = true := by
  induction n with
  | nil => rfl
  | cons a as ih => simp [isPrefixOfB, ih]

theorem isPrefixOfB_extend (n h t : List Char)
    (hp : isPrefixOfB n h = true) : isPrefixOfB n (h ++ t) = true := by
  induction n generalizing h with
  | nil => rfl
  | cons a as ih =>
    cases h with
    | nil => simp [isPrefixOfB] at hp
    | cons b bs =>
      simp only [isPrefixOfB, Bool.and_eq_true] at hp
      simp [isPrefixOfB, hp.1, ih bs hp.2]

theorem hasSub_nil_needle (h : List Char) : hasSub [] h = true := by
  cases h with
  | nil => rfl
  | cons c hs => simp [hasSub, isPrefixOfB]

theorem hasSub_of_isPrefixOfB (n h : List Char)
    (hp : isPrefixOfB n h = true) : hasSub n h = true := by
  cases h with
  | nil =>
    cases n with
    | nil => rfl
    | cons a as => simp [isPrefixOfB] at hp
  | cons c hs => simp [hasSub, hp]

theorem hasSub_append_right (n h t : List Char)
    (hs : hasSub n h = true) : hasSub n (h ++ t) = true := by
  induction h with
  | nil =>
    have : n = [] := by
      cases n with
      | nil => rfl
      | cons a as => simp [hasSub] at hs
    subst this
    exact hasSub_nil_needle t
  | cons c cs ih =>
    simp only [hasSub, Bool.or_eq_true] at hs
    rcases hs with hp | hrec
    · have := isPrefixOfB_extend n (c :: cs) t hp
      simpa [hasSub] using Or.inl this
    · simpa [hasSub] using Or.inr (ih hrec)

theorem hasSub_append_left (n pre h : List Char)
    (hs : hasSub n h = true) : hasSub n (pre ++ h) = true := by
  induction pre with
  | nil => simpa using hs
  | cons c cs ih => simpa [hasSub] using Or.inr ih

theorem hasSub_self_append (n t : List Char) : hasSub n (n ++ t) = true :=
  hasSub_of_isPrefixOfB _ _ (isPrefixOfB_append_self n t)

theorem strHas_append_left (needle pre s : String)
    (h : strHas needle s = true) : strHas needle (pre ++ s) = true := by
  unfold strHas at *
  rw [String.data_append]
  exact hasSub_append_left _ _ _ h

theorem strHas_append_right (needle s t : String)
    (h : strHas needle s = true) : strHas needle (s ++ t) = true := by
  unfold strHas at *
  rw [String.data_append]
  exact hasSub_append_right _ _ _ h

theorem strHas_self_append (needle t : String) :
    strHas needle (needle ++ t) = true := by
  unfold strHas
  rw [String.data_append]
  exact hasSub_self_append _ _

theorem strHas_refl (s : String) : strHas s s = true := by
  have := strHas_self_append s ""
  simpa using this

theorem strHas_joinSep (sep a : String) (l : List String) (hmem : a ∈ l) :
    strHas a (joinSep sep l) = true := by
  induction l with
  | nil => cases hmem
  | cons x rest ih =>
    cases rest with
    | nil =>
      rcases List.mem_singleton.mp hmem with rfl
      exact strHas_refl a
    | cons y ys =>
      rcases List.mem_cons.mp hmem with rfl | hmem'
      · show strHas a (a ++ sep ++ joinSep sep (y :: ys)) = true
        rw [String.append_assoc]
        exact strHas_self_append a _
      · show strHas a (x ++ sep ++ joinSep sep (y :: ys)) = true
        rw [String.append_assoc]
        exact strHas_append_left _ _ _ (strHas_append_left _ _ _ (ih hmem'))

theorem mem_dedupFirstAux (a : String) (seen xs : List String) :
    a ∈ dedupFirstAux seen xs ↔ a ∈ xs ∧ a ∉ seen := by
  induction xs generalizing seen with
  | nil => simp [dedupFirstAux]
  | cons x rest ih =>
    by_cases hx : x ∈ seen
    · rw [dedupFirstAux, if_pos hx, ih]
      constructor
      · rintro ⟨hr, hs⟩
        exact ⟨List.mem_cons_of_mem _ hr, hs⟩
      · rintro ⟨hxr, hs⟩
        rcases List.mem_cons.mp hxr with rfl | hr
        · exact absurd hx hs
        · exact ⟨hr, hs⟩
    · rw [dedupFirstAux, if_neg hx]
      constructor
      · intro hmem
        rcases List.mem_cons.mp hmem with rfl | hmem'
        · exact ⟨List.mem_cons_self _ _, hx⟩
        · rcases (ih (x :: seen)).mp hmem' with ⟨hr, hs⟩
          refine ⟨List.mem_cons_of_mem _ hr, fun hseen => hs ?_⟩
          exact List.mem_cons_of_mem _ hseen
      · rintro ⟨hxr, hs⟩
        rcases List.mem_cons.mp hxr with rfl | hr
        · exact List.mem_cons_self _ _
        · by_cases hax : a = x
          · subst hax; exact List.mem_cons_self _ _
          · refine List.mem_cons_of_mem _ ((ih (x :: seen)).mpr ⟨hr, ?_⟩)
            intro hmem
            rcases List.mem_cons.mp hmem with h1 | h2
            · exact hax h1
            · exact hs h2

theorem nodup_dedupFirstAux (seen xs : List String) :
    (dedupFirstAux seen xs).Nodup := by
  induction xs generalizing seen with
  | nil => simp [dedupFirstAux]
  | cons x rest ih =>
    by_cases hx : x ∈ seen
    · rw [dedupFirstAux, if_pos hx]
      exact ih seen
    · rw [dedupFirstAux, if_neg hx]
      refine List.nodup_cons.mpr ⟨?_, ih (x :: seen)⟩
      intro hmem
      exact ((mem_dedupFirstAux x (x :: seen) rest).mp hmem).2
        (List.mem_cons_self _ _)

theorem setListSpec_dedupFirst : SetListSpec dedupFirst := by
  intro xs
  refine ⟨nodup_dedupFirstAux [] xs, fun a => ?_⟩
  rw [dedupFirst, mem_dedupFirstAux]
  simp

theorem setListSpec_revDedup : SetListSpec revDedup := by
  intro xs
  rcases setListSpec_dedupFirst xs with ⟨hnd, hmem⟩
  refine ⟨by simpa [revDedup, List.nodup_reverse] using hnd, fun a => ?_⟩
  rw [revDedup, List.mem_reverse]
  exact hmem a

theorem foldl_collect (f : String → Option Int) (l : List String)
    (acc : List Int) :
    l.foldl (fun acc pm =>
      match f pm with
      | some n => acc ++ [n]
      | none => acc) acc = acc ++ l.filterMap f := by
  induction l generalizing acc with
  | nil => simp
  | cons x rest ih =>
    cases hx : f x <;> simp [List.foldl_cons, hx, ih]

/-- The per-entry host port of the port-extraction step: the integer
parse of the prefix before the first colon when a colon is present,
otherwise of the whole entry. -/
def hostPort (pm : String) : Option Int :=
  if pm.data.contains ':' then pyInt (beforeColon pm) else pyInt pm

theorem extract_ports_eq_filterMap (l : List String) :
    extract_ports_from_config (some l) = l.filterMap hostPort := by
  show l.foldl _ [] = _
  have hbody : (fun (acc : List Int) pm =>
      if pm.data.contains ':' then
        match pyInt (beforeColon pm) with
        | some n => acc ++ [n]
        | none => acc
      else
        match pyInt pm with
        | some n => acc ++ [n]
        | none => acc) =
      (fun (acc : List Int) pm =>
        match hostPort pm with
        | some n => acc ++ [n]
        | none => acc) := by
    funext acc pm
    by_cases hc : ':' ∈ pm.data <;> simp [hostPort, hc]
  rw [hbody, foldl_collect]
  simp

/-! ### Claims -/

/-- C6 (confirmed): port extraction maps each `"host:container"` entry to
the parse of its host side and each bare entry to its own parse, keeps
exactly the successfully parsed entries in their original order
(`filterMap` preserves order and drops failures), never fails, and in
particular drops the malformed `"abc"` from `["3000:3000", "abc",
"5432"]`. -/
theorem extract_ports_spec :
    extract_ports_from_config none = [] ∧
    (∀ l : List String,
      extract_ports_from_config (some l) = l.filterMap hostPort) ∧
    extract_ports_from_config (some ["3000:3000", "abc", "5432"]) =
      [3000, 5432] := by
  refine ⟨rfl, extract_ports_eq_filterMap, by decide⟩

theorem find_hook_scripts_eq (fs : FS) (e p h : String) :
    find_hook_scripts fs e p h =
      (if osPathIsfile fs (userHookPath h e) &&
          is_executable fs (userHookPath h e) then
        [("user", userHookPath h e)]
      else []) ++
      (if osPathIsfile fs (projectHookPath p e) &&
          is_executable fs (projectHookPath p e) then
        [("project", projectHookPath p e)]
      else []) := by
  unfold find_hook_scripts
  cases h1 : osPathIsfile fs (userHookPath h e) &&
      is_executable fs (userHookPath h e) <;>
    cases h2 : osPathIsfile fs (projectHookPath p e) &&
        is_executable fs (projectHookPath p e) <;>
    simp [h1, h2]

/-- C7 (confirmed): `find_hook_scripts` checks the user-tier candidate
`<home>/.config/devenv/hooks/<event>` first and the project-tier
candidate `<project>/.devenv/hooks/<event>` second; a candidate is kept
exactly when it is a regular file whose mode has the owner-execute bit
(`is_executable` tests `st_mode & stat.S_IEXEC`); non-qualifying
candidates are skipped without error (the result is always a list), and
the four presence combinations give `[user, project]`, `[user]`,
`[project]` and `[]` respectively. -/
theorem find_hook_scripts_spec (fs : FS) (e p h : String) :
    ((osPathIsfile fs (userHookPath h e) &&
        is_executable fs (userHookPath h e)) = true →
      (osPathIsfile fs (projectHookPath p e) &&
          is_executable fs (projectHookPath p e)) = true →
      find_hook_scripts fs e p h =
        [("user", userHookPath h e), ("project", projectHookPath p e)]) ∧
    ((osPathIsfile fs (userHookPath h e) &&
        is_executable fs (userHookPath h e)) = true →
      (osPathIsfile fs (projectHookPath p e) &&
          is_executable fs (projectHookPath p e)) = false →
      find_hook_scripts fs e p h = [("user", userHookPath h e)]) ∧
    ((osPathIsfile fs (userHookPath h e) &&
        is_executable fs (userHookPath h e)) = false →
      (osPathIsfile fs (projectHookPath p e) &&
          is_executable fs (projectHookPath p e)) = true →
      find_hook_scripts fs e p h = [("project", projectHookPath p e)]) ∧
    ((osPathIsfile fs (userHookPath h e) &&
        is_executable fs (userHookPath h e)) = false →
      (osPathIsfile fs (projectHookPath p e) &&
          is_executable fs (projectHookPath p e)) = false →
      find_hook_scripts fs e p h = []) := by
  refine ⟨fun h1 h2 => ?_, fun h1 h2 => ?_, fun h1 h2 => ?_, fun h1 h2 => ?_⟩ <;>
    rw [find_hook_scripts_eq, h1, h2] <;> rfl

/-- Witness for C7: a filesystem holding an executable (mode `0o755`)
regular file at both tiers yields exactly `[user, project]`. -/
theorem find_hook_scripts_spec_witness :
    find_hook_scripts
        [("/home/u/.config/devenv/hooks/post_create", .file 0o755),
         ("/proj/.devenv/hooks/post_create", .file 0o755)]
        "post_create" "/proj" "/home/u" =
      [("user", userHookPath "/home/u" "post_create"),
       ("project", projectHookPath "/proj" "post_create")] :=
  (find_hook_scripts_spec
    [("/home/u/.config/devenv/hooks/post_create", .file 0o755),
     ("/proj/.devenv/hooks/post_create", .file 0o755)]
    "post_create" "/proj" "/home/u").1 (by decide) (by decide)

/-- C8 (confirmed): `validate_modules` succeeds (returning the request)
precisely when every requested name is a catalog key; on failure the
error message contains every unknown entry and every available module
name, and Scenario D produces exactly the expected message. -/
theorem validate_modules_spec (names : List String) :
    (validate_modules names = .ok names ↔
      ∀ n ∈ names, n ∈ BUILTIN_MODULES.map (·.1)) ∧
    ((∃ n ∈ names, n ∉ BUILTIN_MODULES.map (·.1)) →
      ∃ msg, validate_modules names = .error msg ∧
        (∀ n ∈ names, n ∉ BUILTIN_MODULES.map (·.1) → strHas n msg = true) ∧
        strHas "claude-code" msg = true ∧
        strHas "docker-in-docker" msg = true) ∧
    validate_modules ["claude-code", "bogus"] = .error
      "Unknown modules: bogus. Available modules: claude-code, docker-in-docker" := by
  refine ⟨?_, ?_, rfl⟩
  · unfold validate_modules
    cases hinv : (names.filter
        (fun n => !(BUILTIN_MODULES.map (·.1)).contains n)).isEmpty with
    | true =>
      simp only [hinv, Bool.not_true, Bool.false_eq_true, if_false]
      constructor
      · intro _ n hn
        have := List.isEmpty_iff.mp hinv
        by_contra hmem
        have hn' : n ∈ names.filter
            (fun n => !(BUILTIN_MODULES.map (·.1)).contains n) := by
          rw [List.mem_filter]
          exact ⟨hn, by simpa using hmem⟩
        rw [this] at hn'
        cases hn'
      · intro _; trivial
    | false =>
      simp only [hinv, Bool.not_false, if_true]
      constructor
      · intro h; cases h
      · intro hall
        exfalso
        rcases List.isEmpty_eq_false.mp hinv with h
        rcases List.exists_mem_of_ne_nil _ h with ⟨n, hn⟩
        rw [List.mem_filter] at hn
        have := hall n hn.1
        simp [this] at hn
  · intro ⟨n0, hn0, hn0m⟩
    unfold validate_modules
    have hmem : n0 ∈ names.filter
        (fun n => !(BUILTIN_MODULES.map (·.1)).contains n) := by
      rw [List.mem_filter]
      exact ⟨hn0, by simpa using hn0m⟩
    have hne : (names.filter
        (fun n => !(BUILTIN_MODULES.map (·.1)).contains n)).isEmpty = false := by
      cases h : (names.filter
          (fun n => !(BUILTIN_MODULES.map (·.1)).contains n)).isEmpty with
      | false => rfl
      | true =>
        rw [List.isEmpty_iff.mp h] at hmem
        cases hmem
    simp only [hne, Bool.not_false, if_true]
    refine ⟨_, rfl, ?_, ?_, ?_⟩
    · intro n hn hnm
      have hmemn : n ∈ names.filter
          (fun n => !(BUILTIN_MODULES.map (·.1)).contains n) := by
        rw [List.mem_filter]
        exact ⟨hn, by simpa using hnm⟩
      have hj := strHas_joinSep ", " n _ hmemn
      exact strHas_append_right _ _ _
        (strHas_append_right _ _ _ (strHas_append_left _ "Unknown modules: " _ hj))
    · exact strHas_append_left _ _ _ (by decide)
    · exact strHas_append_left _ _ _ (by decide)

/-- Witness for C8: Scenario D's request fails with a message naming the
unknown entry and listing both available modules. -/
theorem validate_modules_spec_witness :
    ∃ msg, validate_modules ["claude-code", "bogus"] = .error msg ∧
      (∀ n ∈ ["claude-code", "bogus"],
        n ∉ BUILTIN_MODULES.map (·.1) → strHas n msg = true) ∧
      strHas "claude-code" msg = true ∧
      strHas "docker-in-docker" msg = true :=
  (validate_modules_spec ["claude-code", "bogus"]).2.1
    ⟨"bogus", by decide, by decide⟩

theorem dget_plugins_foldl_ne (pp : List (String × List String))
    (f : List String → List String) (ups : List (String × List String))
    (acc : Dict) (k : String) (h : k ≠ "plugins") :
    dget (ups.foldl (fun acc idePl =>
      match dget pp idePl.1 with
      | some pl => setPlugins acc idePl.1 (f (pl ++ idePl.2))
      | none => setPlugins acc idePl.1 idePl.2) acc) k = dget acc k := by
  induction ups generalizing acc with
  | nil => rfl
  | cons x rest ih =>
    rw [List.foldl_cons]
    cases dget pp x.1 with
    | none => rw [ih, dget_setPlugins_ne _ _ _ _ h]
    | some pl => rw [ih, dget_setPlugins_ne _ _ _ _ h]

/-- C5 (confirmed): for any user layer, the merged result agrees with the
user-less merge on every key outside the allow list
`plugins`/`hooks_dir`/`dotfiles_dir` — in particular the user layer can
never contribute `name`, `image`, `ports`, `environment` or `features`. -/
theorem merge_configs_user_allowlist (f : List String → List String)
    (p : Option Dict) (u : Dict) (n : String) (k : String)
    (hk : k ∉ (["plugins", "hooks_dir", "dotfiles_dir"] : List String)) :
    dget (merge_configs f p (some u) n) k =
      dget (merge_configs f p none n) k := by
  have hk1 : k ≠ "plugins" := by intro h; exact hk (by simp [h])
  have hk2 : k ≠ "hooks_dir" := by intro h; exact hk (by simp [h])
  have hk3 : k ≠ "dotfiles_dir" := by intro h; exact hk (by simp [h])
  have h1 : ∀ d : Dict,
      dget (match dget u "plugins" with
        | some (.vPlugins user_plugins) =>
          user_plugins.foldl (fun acc idePl =>
            match dget (match dget d "plugins" with
              | some (.vPlugins m) => m
              | _ => []) idePl.1 with
            | some pl => setPlugins acc idePl.1 (f (pl ++ idePl.2))
            | none => setPlugins acc idePl.1 idePl.2) d
        | _ => d) k = dget d k := by
    intro d
    cases dget u "plugins" with
    | none => rfl
    | some v =>
      cases v with
      | vPlugins up => exact dget_plugins_foldl_ne _ _ _ _ _ hk1
      | vStr s => rfl
      | vInt n => rfl
      | vStrList l => rfl
      | vPairs m => rfl
  have h2 : ∀ d : Dict,
      dget (match dget u "hooks_dir" with
        | some v => dset d "hooks_dir" v
        | none => d) k = dget d k := by
    intro d
    cases dget u "hooks_dir" with
    | none => rfl
    | some v => rw [dget_dset, if_neg hk2]
  have h3 : ∀ d : Dict,
      dget (match dget u "dotfiles_dir" with
        | some v => dset d "dotfiles_dir" v
        | none => d) k = dget d k := by
    intro d
    cases dget u "dotfiles_dir" with
    | none => rfl
    | some v => rw [dget_dset, if_neg hk3]
  simp only [merge_configs]
  rw [h3, h2, h1]

/-- Witness for C5: a user layer carrying `image` and `ports` keys leaves
the merged `image` exactly as the user-less merge computes it. -/
theorem merge_configs_user_allowlist_witness :
    dget (merge_configs dedupFirst
        (some [("image", PyVal.vStr "node:20")])
        (some [("image", PyVal.vStr "evil"), ("ports", PyVal.vStrList ["9:9"])])
        "proj") "image" =
      dget (merge_configs dedupFirst
        (some [("image", PyVal.vStr "node:20")]) none "proj") "image" :=
  merge_configs_user_allowlist dedupFirst
    (some [("image", PyVal.vStr "node:20")])
    [("image", PyVal.vStr "evil"), ("ports", PyVal.vStrList ["9:9"])]
    "proj" "image" (by decide)

/-- The spec's identifier pattern `^[A-Za-z0-9_-]+$` as a predicate, for
comparison with the implemented check (claim-side definition, written
from the claim's words). -/
def matchesIdentPattern (s : String) : Bool :=
  !s.isEmpty && s.data.all (fun c => c.isAlphanum || c == '-' || c == '_')

theorem pyIsAlnum_strip_iff (name : String) :
    pyIsAlnum (stripSeparators name) = true ↔
      ((∀ c ∈ name.data, c.isAlphanum = true ∨ c = '-' ∨ c = '_') ∧
        ∃ c ∈ name.data, c.isAlphanum = true) := by
  unfold pyIsAlnum stripSeparators
  constructor
  · intro h
    rw [Bool.and_eq_true] at h
    obtain ⟨hne, hall⟩ := h
    have hdata : (String.mk (name.data.filter
        (fun c => decide (c ≠ '-' ∧ c ≠ '_')))).data =
        name.data.filter (fun c => decide (c ≠ '-' ∧ c ≠ '_')) := rfl
    rw [List.all_eq_true] at hall
    constructor
    · intro c hc
      by_cases hd : c = '-'
      · exact Or.inr (Or.inl hd)
      by_cases hu : c = '_'
      · exact Or.inr (Or.inr hu)
      · refine Or.inl (hall c ?_)
        rw [hdata, List.mem_filter]
        exact ⟨hc, by simp [hd, hu]⟩
    · have hne' : String.mk (name.data.filter
          (fun c => decide (c ≠ '-' ∧ c ≠ '_'))) ≠ "" := by
        intro heq
        rw [heq] at hne
        exact absurd hne (by decide)
      have hlne : name.data.filter (fun c => decide (c ≠ '-' ∧ c ≠ '_')) ≠ [] := by
        intro hnil
        apply hne'
        show String.mk _ = ""
        rw [hnil]
      rcases List.exists_mem_of_ne_nil _ hlne with ⟨c, hc⟩
      have hcn := (List.mem_filter.mp hc).1
      exact ⟨c, hcn, hall c (by rw [hdata]; exact hc)⟩
  · rintro ⟨hall, c0, hc0, hc0a⟩
    rw [Bool.and_eq_true]
    have hc0ne : c0 ≠ '-' ∧ c0 ≠ '_' := by
      constructor <;> rintro rfl <;> simp at hc0a
    constructor
    · rw [Bool.not_eq_true']
      rw [Bool.eq_false_iff]
      intro hemp
      rw [String.isEmpty_iff] at hemp
      have : c0 ∈ name.data.filter (fun c => decide (c ≠ '-' ∧ c ≠ '_')) := by
        rw [List.mem_filter]
        exact ⟨hc0, by simp [hc0ne.1, hc0ne.2]⟩
      have hnil : name.data.filter (fun c => decide (c ≠ '-' ∧ c ≠ '_')) = [] := by
        have := congrArg String.data hemp
        simpa using this
      rw [hnil] at this
      cases this
    · rw [List.all_eq_true]
      intro c hc
      have hcf := List.mem_filter.mp hc
      have hcd : c ≠ '-' ∧ c ≠ '_' := by simpa using hcf.2
      rcases hall c hcf.1 with h | h | h
      · exact h
      · exact absurd h hcd.1
      · exact absurd h hcd.2

/-- C3 counterexample: the name `"-"` matches the claimed identifier
pattern `^[A-Za-z0-9_-]+$` and the image is non-empty, so the claim
predicts success, but `validate_config` rejects it: the implemented check
strips hyphens and underscores and requires the (then empty) remainder to
be alphanumeric. -/
theorem validate_config_pattern_counterexample :
    matchesIdentPattern "-" = true ∧
    validate_config [("name", .vStr "-"), ("image", .vStr "x")] =
      .error (invalidNameErr "-") := by
  constructor
  · decide
  · rfl

/-- C3 amended (for ASCII names, over which the embedded `isalnum`
agrees with Python): validation succeeds, returning the configuration,
iff name and image are present and non-empty, every name character is an
ASCII alphanumeric, hyphen or underscore, AND at least one character is
alphanumeric (hyphen/underscore-only names are rejected); each failure
names the offending field: missing/empty name or image produce the
required-field error for that field, and a name failing the character
check produces the invalid-characters error citing the name. -/
theorem validate_config_amended (name image : String)
    (hA : name.data.all (fun c => decide (c.toNat < 128)) = true) :
    (validate_config [("name", .vStr name), ("image", .vStr image)] =
        .ok [("name", .vStr name), ("image", .vStr image)] ↔
      (name ≠ "" ∧ image ≠ "" ∧
        (∀ c ∈ name.data, c.isAlphanum = true ∨ c = '-' ∨ c = '_') ∧
        ∃ c ∈ name.data, c.isAlphanum = true)) ∧
    (name = "" →
      validate_config [("name", .vStr name), ("image", .vStr image)] =
        .error (requiredErr "name")) ∧
    (name ≠ "" → image = "" →
      validate_config [("name", .vStr name), ("image", .vStr image)] =
        .error (requiredErr "image")) ∧
    (name ≠ "" → image ≠ "" → pyIsAlnum (stripSeparators name) = false →
      validate_config [("name", .vStr name), ("image", .vStr image)] =
        .error (invalidNameErr name)) := by
  have hname : dget [("name", PyVal.vStr name), ("image", PyVal.vStr image)]
      "name" = some (.vStr name) := by
    rw [dget_cons]; rfl
  have himage : dget [("name", PyVal.vStr name), ("image", PyVal.vStr image)]
      "image" = some (.vStr image) := by
    rw [dget_cons, dget_cons]; rfl
  have hval : validate_config [("name", .vStr name), ("image", .vStr image)] =
      (if name.isEmpty then .error (requiredErr "name")
       else if image.isEmpty then .error (requiredErr "image")
       else if pyIsAlnum (stripSeparators name) then
         .ok [("name", .vStr name), ("image", .vStr image)]
       else .error (invalidNameErr name)) := by
    unfold validate_config
    rw [hname, himage]
    simp only [pyTruthy, Bool.not_not]
  by_cases hn : name = ""
  · have hne : name.isEmpty = true := (String.isEmpty_iff _).mpr hn
    have hv : validate_config [("name", .vStr name), ("image", .vStr image)] =
        .error (requiredErr "name") := by
      rw [hval, if_pos hne]
    refine ⟨?_, fun _ => hv, fun h => absurd hn h, fun h => absurd hn h⟩
    constructor
    · intro h
      rw [hv] at h
      exact Except.noConfusion h
    · rintro ⟨h, _⟩
      exact absurd hn h
  · have hne : ¬ (name.isEmpty = true) :=
      fun h => hn ((String.isEmpty_iff _).mp h)
    by_cases hi : image = ""
    · have hie : image.isEmpty = true := (String.isEmpty_iff _).mpr hi
      have hv : validate_config [("name", .vStr name), ("image", .vStr image)] =
          .error (requiredErr "image") := by
        rw [hval, if_neg hne, if_pos hie]
      refine ⟨?_, fun h => absurd h hn, fun _ _ => hv, fun _ h => absurd hi h⟩
      constructor
      · intro h
        rw [hv] at h
        exact Except.noConfusion h
      · rintro ⟨_, h, _⟩
        exact absurd hi h
    · have hie : ¬ (image.isEmpty = true) :=
        fun h => hi ((String.isEmpty_iff _).mp h)
      cases hal : pyIsAlnum (stripSeparators name) with
      | true =>
        have hv : validate_config
            [("name", .vStr name), ("image", .vStr image)] =
            .ok [("name", .vStr name), ("image", .vStr image)] := by
          rw [hval, if_neg hne, if_neg hie, if_pos hal]
        refine ⟨?_, fun h => absurd h hn, fun _ h => absurd h hi,
          fun _ _ h => Bool.noConfusion h⟩
        exact ⟨fun _ => ⟨hn, hi, (pyIsAlnum_strip_iff name).mp hal⟩,
          fun _ => hv⟩
      | false =>
        have hfal : ¬ (pyIsAlnum (stripSeparators name) = true) :=
          fun h => Bool.noConfusion (hal.symm.trans h)
        have hv : validate_config
            [("name", .vStr name), ("image", .vStr image)] =
            .error (invalidNameErr name) := by
          rw [hval, if_neg hne, if_neg hie, if_neg hfal]
        refine ⟨?_, fun h => absurd h hn, fun _ h => absurd h hi,
          fun _ _ _ => hv⟩
        constructor
        · intro h
          rw [hv] at h
          exact Except.noConfusion h
        · rintro ⟨_, _, hprop⟩
          rw [(pyIsAlnum_strip_iff name).mpr hprop] at hal
          exact Bool.noConfusion hal

/-- Witness for C3 (amended): the ASCII name `"my-app_1"` with image
`"x"` validates successfully. -/
theorem validate_config_amended_witness :
    validate_config [("name", .vStr "my-app_1"), ("image", .vStr "x")] =
      .ok [("name", .vStr "my-app_1"), ("image", .vStr "x")] :=
  (validate_config_amended "my-app_1" "x" (by decide)).1.mpr
    ⟨by decide, by decide, by decide, ⟨'m', by decide, by decide⟩⟩

/-- A filesystem with an executable `post_create` hook at both tiers
(owner mode `0o755`), used by several concrete scenarios. -/
def fsHooks : FS :=
  [("/home/u/.config/devenv/hooks/post_create", .file 0o755),
   ("/proj/.devenv/hooks/post_create", .file 0o755)]

/-- The hook command as claim C4 words it: per hook, the echo and the
`source <shell-rc> && <hook path>` part joined by the same `" && "`
separator that joins the hook segments (claim-side definition, written
from the claim's words, for comparison with `generate_hook_command`). -/
def claimedHookCommand (event : String) (refs : List (String × String)) : String :=
  joinSep " && " (refs.map (fun sp =>
    "echo \"Executing " ++ sp.1 ++ " " ++ event ++ " hook...\" && " ++
      "source ~/.bashrc && " ++ sp.2))

/-- C4 counterexample: with both hooks present, `generate_hook_command`
produces segments whose echo and `source`/execute parts are separated by
a newline and eight spaces of indentation (the residue of the stripped
triple-quoted f-string), not by the `" && "` separator the claim
asserts; the exact output differs from the claim's format. -/
theorem generate_hook_command_counterexample :
    generate_hook_command fsHooks "post_create" "/proj" "/home/u" =
      some ("echo \"Executing user post_create hook...\"\n        source ~/.bashrc && /home/u/.config/devenv/hooks/post_create" ++
        " && " ++
        "echo \"Executing project post_create hook...\"\n        source ~/.bashrc && /proj/.devenv/hooks/post_create") ∧
    generate_hook_command fsHooks "post_create" "/proj" "/home/u" ≠
      some (claimedHookCommand "post_create"
        (find_hook_scripts fsHooks "post_create" "/proj" "/home/u")) := by
  constructor
  · rfl
  · decide

/-- C4 amended: `generate_hook_command` returns `none` exactly when no
hooks are found; otherwise it joins the per-hook segments with `" && "`,
where each segment is the `"Executing {tier} {event} hook..."` echo
followed by a newline and indentation and then
`source ~/.bashrc && <hook path>` (the echo/exec pair is separated by the
stripped f-string's interior newline, not by the `" && "` separator). -/
theorem generate_hook_command_amended (fs : FS) (e p h : String) :
    (find_hook_scripts fs e p h = [] →
      generate_hook_command fs e p h = none) ∧
    (find_hook_scripts fs e p h ≠ [] →
      generate_hook_command fs e p h =
        some (joinSep " && "
          ((find_hook_scripts fs e p h).map (hookSegment e)))) := by
  unfold generate_hook_command
  constructor
  · intro h0
    rw [h0]
    rfl
  · intro h0
    have hfe : (find_hook_scripts fs e p h).isEmpty = false := by
      cases hfe : find_hook_scripts fs e p h with
      | nil => exact absurd hfe h0
      | cons a rest => rfl
    simp only [hfe, Bool.false_eq_true, if_false]

/-- Witness for C4 (amended): the two-hook filesystem produces the
joined newline-bearing segments. -/
theorem generate_hook_command_amended_witness :
    generate_hook_command fsHooks "post_create" "/proj" "/home/u" =
      some (joinSep " && "
        ((find_hook_scripts fsHooks "post_create" "/proj" "/home/u").map
          (hookSegment "post_create"))) :=
  (generate_hook_command_amended fsHooks "post_create" "/proj" "/home/u").2
    (by decide)

/-- A merged configuration with dotfiles and a user post-create command,
used by the C1 counterexample. -/
def mergedC1 : Dict :=
  [("name", .vStr "app"), ("image", .vStr "img"),
   ("dotfiles_dir", .vStr "/home/u/.config/devenv/dotfiles"),
   ("post_create_command", .vStr "npm install")]

/-- C1 counterexample: executable `post_create` hooks exist at both
tiers, so the claim requires the generated specification's
postCreateCommand to contain the hook segments; but
`generate_devcontainer_json` never consults the hook system — its
postCreateCommand is exactly the bootstrap/activation/install/dotfiles/
user-command join with no `"Executing"` segment at all. -/
theorem generate_devcontainer_postCreate_counterexample :
    (find_hook_scripts fsHooks "post_create" "/proj" "/home/u").length = 2 ∧
    generate_devcontainer_postCreateCommand mergedC1 =
      "curl -fsSL https://mise.run | sh && echo 'eval \"$(~/.local/bin/mise activate bash)\"' >> ~/.bashrc && echo 'eval \"$(~/.local/bin/mise activate zsh)\"' >> ~/.zshrc && ~/.local/bin/mise install && cp -r /tmp/devenv-dotfiles/. ~/ && npm install" ∧
    strHas "Executing" (generate_devcontainer_postCreateCommand mergedC1) =
      false := by
  refine ⟨by decide, rfl, by decide⟩

/-- C1 amended: the generated specification's postCreateCommand is the
`" && "`-join of the toolchain bootstrap install, the bash and zsh
shell-activation lines, the toolchain install step, the dotfiles copy
step (only if `dotfiles_dir` is set) and then the user's
`post_create_command` if set; lifecycle hooks are NOT included — the
generator never invokes the hook command builder (which exists in the
hook module but has no caller in generation). -/
theorem generate_devcontainer_postCreate_amended (merged : Dict) :
    (dget merged "post_create_command" = none →
      generate_devcontainer_postCreateCommand merged =
        joinSep " && "
          (["curl -fsSL https://mise.run | sh",
            "echo 'eval \"$(~/.local/bin/mise activate bash)\"' >> ~/.bashrc",
            "echo 'eval \"$(~/.local/bin/mise activate zsh)\"' >> ~/.zshrc",
            "~/.local/bin/mise install"] ++
           (if dcontains merged "dotfiles_dir" then
             ["cp -r /tmp/devenv-dotfiles/. ~/"]
           else []))) ∧
    (∀ s, dget merged "post_create_command" = some (.vStr s) →
      generate_devcontainer_postCreateCommand merged =
        joinSep " && "
          (["curl -fsSL https://mise.run | sh",
            "echo 'eval \"$(~/.local/bin/mise activate bash)\"' >> ~/.bashrc",
            "echo 'eval \"$(~/.local/bin/mise activate zsh)\"' >> ~/.zshrc",
            "~/.local/bin/mise install"] ++
           (if dcontains merged "dotfiles_dir" then
             ["cp -r /tmp/devenv-dotfiles/. ~/"]
           else []) ++ [s])) := by
  unfold generate_devcontainer_postCreateCommand
  constructor
  · intro h0
    rw [h0]
    cases hd : dcontains merged "dotfiles_dir" <;> simp [hd]
  · intro s hs
    rw [hs]
    cases hd : dcontains merged "dotfiles_dir" <;> simp [hd, asStr]

/-- Witness for C1 (amended): the concrete merged configuration with
dotfiles and a user command produces the six-segment join. -/
theorem generate_devcontainer_postCreate_amended_witness :
    generate_devcontainer_postCreateCommand mergedC1 =
      joinSep " && "
        (["curl -fsSL https://mise.run | sh",
          "echo 'eval \"$(~/.local/bin/mise activate bash)\"' >> ~/.bashrc",
          "echo 'eval \"$(~/.local/bin/mise activate zsh)\"' >> ~/.zshrc",
          "~/.local/bin/mise install"] ++
         (if dcontains mergedC1 "dotfiles_dir" then
           ["cp -r /tmp/devenv-dotfiles/. ~/"]
         else []) ++ ["npm install"]) :=
  (generate_devcontainer_postCreate_amended mergedC1).2 "npm install" (by decide)

/-- Scenario B's project configuration. -/
def projB : Dict :=
  [("name", .vStr "my-web-app"), ("image", .vStr "node:20"),
   ("plugins", .vPlugins [("vscode", ["ms-python.python"])])]

/-- Scenario B's user configuration. -/
def userB : Dict :=
  [("plugins", .vPlugins
    [("vscode", ["ms-python.python", "esbenp.prettier-vscode"])])]

/-- C2 counterexample: the merge computes the combined list as
`list(set(project + user))`, whose order is CPython's hash-dependent set
iteration order, not first-seen order.  `revDedup` is a legitimate
enumeration of the set (no duplicates, exact membership — `SetListSpec`),
yet under it Scenario B yields the two plugins in the order
`[esbenp.prettier-vscode, ms-python.python]`, not the claimed
`[ms-python.python, esbenp.prettier-vscode]`. -/
theorem merge_plugins_order_counterexample :
    SetListSpec revDedup ∧
    dget (merge_configs revDedup (some projB) (some userB) "my-web-app")
        "plugins" =
      some (.vPlugins
        [("vscode", ["esbenp.prettier-vscode", "ms-python.python"])]) ∧
    (["esbenp.prettier-vscode", "ms-python.python"] : List String) ≠
      ["ms-python.python", "esbenp.prettier-vscode"] :=
  ⟨setListSpec_revDedup, by decide, by decide⟩

/-- C2 amended: for every project and user plugin list for the same
editor kind, the merged plugin list contains exactly the union of the two
lists with duplicates removed, but in an unspecified order (whatever
order Python's set iteration produces); the claimed project-first,
first-seen order is not guaranteed. -/
theorem merge_plugins_amended (f : List String → List String)
    (hf : SetListSpec f) (ide : String) (pl ul : List String) :
    dget (merge_configs f
        (some [("plugins", PyVal.vPlugins [(ide, pl)])])
        (some [("plugins", PyVal.vPlugins [(ide, ul)])]) "proj") "plugins" =
      some (.vPlugins [(ide, f (pl ++ ul))]) ∧
    (f (pl ++ ul)).Nodup ∧
    (∀ a, a ∈ f (pl ++ ul) ↔ a ∈ pl ++ ul) := by
  refine ⟨?_, (hf (pl ++ ul)).1, (hf (pl ++ ul)).2⟩
  simp only [merge_configs, generate_default_config, dupdate, dset, dget,
    setPlugins, dcontains, List.foldl_cons, List.foldl_nil, List.find?,
    List.any_cons, List.any_nil, List.map_cons, List.map_nil,
    beq_self_eq_true]
  simp

/-- Witness for C2 (amended): under the first-seen enumeration, Scenario
B's lists merge to a duplicate-free list with exactly the union as
members. -/
theorem merge_plugins_amended_witness :
    dget (merge_configs dedupFirst
        (some [("plugins", PyVal.vPlugins
          [("vscode", ["ms-python.python"])])])
        (some [("plugins", PyVal.vPlugins
          [("vscode", ["ms-python.python", "esbenp.prettier-vscode"])])])
        "proj") "plugins" =
      some (.vPlugins [("vscode",
        dedupFirst (["ms-python.python"] ++
          ["ms-python.python", "esbenp.prettier-vscode"]))]) ∧
    (dedupFirst (["ms-python.python"] ++
      ["ms-python.python", "esbenp.prettier-vscode"])).Nodup ∧
    (∀ a, a ∈ dedupFirst (["ms-python.python"] ++
        ["ms-python.python", "esbenp.prettier-vscode"]) ↔
      a ∈ ["ms-python.python"] ++
        ["ms-python.python", "esbenp.prettier-vscode"]) :=
  merge_plugins_amended dedupFirst setListSpec_dedupFirst "vscode"
    ["ms-python.python"] ["ms-python.python", "esbenp.prettier-vscode"]

/-- The `remoteEnv` dict of a configuration, read through the store
(`\x7b\x7d` when the key is absent). -/
def envOf (st : Store) (cfg : DCConfig) : List (String × String) :=
  match cfg.remoteEnv with
  | some r => readEnv st r
  | none => []

/-- The `features` dict of a configuration, read through the store. -/
def featOf (st : Store) (cfg : DCConfig) : List (String × FeatOpts) :=
  match cfg.features with
  | some r => readFeat st r
  | none => []

theorem mergeRunArgs_frame (cfg : DCConfig) (m : Module) :
    (mergeRunArgs cfg m).mounts = cfg.mounts ∧
    (mergeRunArgs cfg m).remoteEnv = cfg.remoteEnv ∧
    (mergeRunArgs cfg m).features = cfg.features ∧
    (mergeRunArgs cfg m).postCreateCommand = cfg.postCreateCommand := by
  cases h : m.run_args <;> simp [mergeRunArgs, h]

theorem mergeRunArgs_runArgs (cfg : DCConfig) (m : Module) :
    (mergeRunArgs cfg m).runArgs.getD [] =
      cfg.runArgs.getD [] ++ m.run_args.getD [] := by
  cases h : m.run_args <;> simp [mergeRunArgs, h]

theorem mergeMounts_frame (cfg : DCConfig) (m : Module) :
    (mergeMounts cfg m).runArgs = cfg.runArgs ∧
    (mergeMounts cfg m).remoteEnv = cfg.remoteEnv ∧
    (mergeMounts cfg m).features = cfg.features ∧
    (mergeMounts cfg m).postCreateCommand = cfg.postCreateCommand := by
  cases h : m.mounts <;> simp [mergeMounts, h]

theorem mergeMounts_mounts (cfg : DCConfig) (m : Module) :
    (mergeMounts cfg m).mounts.getD [] =
      cfg.mounts.getD [] ++ m.mounts.getD [] := by
  cases h : m.mounts <;> simp [mergeMounts, h]

theorem mergeEnvironment_frame (st : Store) (cfg : DCConfig) (m : Module) :
    (mergeEnvironment st cfg m).1.feats = st.feats ∧
    (mergeEnvironment st cfg m).2.runArgs = cfg.runArgs ∧
    (mergeEnvironment st cfg m).2.mounts = cfg.mounts ∧
    (mergeEnvironment st cfg m).2.features = cfg.features ∧
    (mergeEnvironment st cfg m).2.postCreateCommand = cfg.postCreateCommand := by
  cases h : m.environment with
  | none => simp [mergeEnvironment, h]
  | some env => cases hr : cfg.remoteEnv <;> simp [mergeEnvironment, h, hr]

theorem mergeEnvironment_envOf (st : Store) (cfg : DCConfig) (m : Module)
    (hwf : ∀ r, cfg.remoteEnv = some r → r < st.envs.length) :
    envOf (mergeEnvironment st cfg m).1 (mergeEnvironment st cfg m).2 =
      dupdate (envOf st cfg) (m.environment.getD []) := by
  cases h : m.environment with
  | none =>
    simp only [mergeEnvironment, h, Option.getD_none]
    rfl
  | some env =>
    cases hr : cfg.remoteEnv with
    | none =>
      simp only [mergeEnvironment, h, hr, envOf, readEnv, Option.getD_some]
      simp [List.getD]
    | some r =>
      have hlt := hwf r hr
      simp only [mergeEnvironment, h, hr, envOf, readEnv, Option.getD_some]
      simp [List.getD, List.getElem?_set, hlt]

theorem mergeEnvironment_baseWrite (st : Store) (cfg : DCConfig) (m : Module)
    (r : Nat) (env : List (String × String))
    (hr : cfg.remoteEnv = some r) (hlt : r < st.envs.length)
    (henv : m.environment = some env) :
    (mergeEnvironment st cfg m).1.envs.getD r [] =
      dupdate (st.envs.getD r []) env ∧
    (mergeEnvironment st cfg m).2.remoteEnv = some r := by
  simp only [mergeEnvironment, henv, hr]
  refine ⟨?_, by trivial⟩
  simp [readEnv, List.getD, List.getElem?_set, hlt]

theorem mergeFeatures_frame (st : Store) (cfg : DCConfig) (m : Module) :
    (mergeFeatures st cfg m).1.envs = st.envs ∧
    (mergeFeatures st cfg m).2.runArgs = cfg.runArgs ∧
    (mergeFeatures st cfg m).2.mounts = cfg.mounts ∧
    (mergeFeatures st cfg m).2.remoteEnv = cfg.remoteEnv ∧
    (mergeFeatures st cfg m).2.postCreateCommand = cfg.postCreateCommand := by
  cases h : m.features with
  | none => simp [mergeFeatures, h]
  | some fts => cases hr : cfg.features <;> simp [mergeFeatures, h, hr]

theorem mergeFeatures_featOf (st : Store) (cfg : DCConfig) (m : Module)
    (hwf : ∀ r, cfg.features = some r → r < st.feats.length) :
    featOf (mergeFeatures st cfg m).1 (mergeFeatures st cfg m).2 =
      dupdate (featOf st cfg) (m.features.getD []) := by
  cases h : m.features with
  | none =>
    simp only [mergeFeatures, h, Option.getD_none]
    rfl
  | some fts =>
    cases hr : cfg.features with
    | none =>
      simp only [mergeFeatures, h, hr, featOf, readFeat, Option.getD_some]
      simp [List.getD]
    | some r =>
      have hlt := hwf r hr
      simp only [mergeFeatures, h, hr, featOf, readFeat, Option.getD_some]
      simp [List.getD, List.getElem?_set, hlt]

theorem mergeFeatures_baseWrite (st : Store) (cfg : DCConfig) (m : Module)
    (r : Nat) (fts : List (String × FeatOpts))
    (hr : cfg.features = some r) (hlt : r < st.feats.length)
    (hfts : m.features = some fts) :
    (mergeFeatures st cfg m).1.feats.getD r [] =
      dupdate (st.feats.getD r []) fts ∧
    (mergeFeatures st cfg m).2.features = some r := by
  simp only [mergeFeatures, hfts, hr]
  refine ⟨?_, by trivial⟩
  simp [readFeat, List.getD, List.getElem?_set, hlt]

theorem mergePostCreate_frame (st : Store) (cfg : DCConfig) (m : Module) :
    (mergePostCreate st cfg m).1 = st ∧
    (mergePostCreate st cfg m).2.runArgs = cfg.runArgs ∧
    (mergePostCreate st cfg m).2.mounts = cfg.mounts ∧
    (mergePostCreate st cfg m).2.remoteEnv = cfg.remoteEnv ∧
    (mergePostCreate st cfg m).2.features = cfg.features := by
  cases h : m.post_create_commands with
  | none => simp [mergePostCreate, h]
  | some cmds =>
    by_cases hc : cfg.postCreateCommand.getD "" ≠ "" <;>
      simp [mergePostCreate, h, hc]

theorem mergePostCreate_command (st : Store) (cfg : DCConfig) (m : Module) :
    (m.post_create_commands = none →
      (mergePostCreate st cfg m).2.postCreateCommand =
        cfg.postCreateCommand) ∧
    (∀ cmds, m.post_create_commands = some cmds →
      (mergePostCreate st cfg m).2.postCreateCommand =
        some (if cfg.postCreateCommand.getD "" = "" then joinSep " && " cmds
          else cfg.postCreateCommand.getD "" ++ " && " ++
            joinSep " && " cmds)) := by
  constructor
  · intro h
    simp [mergePostCreate, h]
  · intro cmds h
    by_cases hc : cfg.postCreateCommand.getD "" = ""
    · simp [mergePostCreate, h, hc]
    · simp [mergePostCreate, h, hc]

theorem wfConfig_env (st : Store) (cfg : DCConfig)
    (h : wfConfig st cfg = true) :
    ∀ r, cfg.remoteEnv = some r → r < st.envs.length := by
  intro r hr
  unfold wfConfig at h
  rw [Bool.and_eq_true] at h
  have h1 := h.1
  rw [hr] at h1
  simpa using h1

theorem wfConfig_feat (st : Store) (cfg : DCConfig)
    (h : wfConfig st cfg = true) :
    ∀ r, cfg.features = some r → r < st.feats.length := by
  intro r hr
  unfold wfConfig at h
  rw [Bool.and_eq_true] at h
  have h2 := h.2
  rw [hr] at h2
  simpa using h2

theorem envOf_congr (st1 st2 : Store) (c1 c2 : DCConfig)
    (hs : st1.envs = st2.envs) (hc : c1.remoteEnv = c2.remoteEnv) :
    envOf st1 c1 = envOf st2 c2 := by
  unfold envOf readEnv
  rw [hc, hs]

theorem featOf_congr (st1 st2 : Store) (c1 c2 : DCConfig)
    (hs : st1.feats = st2.feats) (hc : c1.features = c2.features) :
    featOf st1 c1 = featOf st2 c2 := by
  unfold featOf readFeat
  rw [hc, hs]

theorem merge_module_config_runArgs (st : Store) (cfg : DCConfig)
    (m : Module) :
    (merge_module_config st cfg m).2.runArgs.getD [] =
      cfg.runArgs.getD [] ++ m.run_args.getD [] := by
  simp only [merge_module_config]
  rw [(mergePostCreate_frame _ _ m).2.1,
    (mergeFeatures_frame _ _ m).2.1,
    (mergeEnvironment_frame _ _ m).2.1,
    (mergeMounts_frame _ m).1,
    mergeRunArgs_runArgs]

theorem merge_module_config_mounts (st : Store) (cfg : DCConfig)
    (m : Module) :
    (merge_module_config st cfg m).2.mounts.getD [] =
      cfg.mounts.getD [] ++ m.mounts.getD [] := by
  simp only [merge_module_config]
  rw [(mergePostCreate_frame _ _ m).2.2.1,
    (mergeFeatures_frame _ _ m).2.2.1,
    (mergeEnvironment_frame _ _ m).2.2.1,
    mergeMounts_mounts,
    (mergeRunArgs_frame _ m).1]

theorem merge_module_config_env (st : Store) (cfg : DCConfig) (m : Module)
    (hwf : wfConfig st cfg = true) :
    envOf (merge_module_config st cfg m).1 (merge_module_config st cfg m).2 =
      dupdate (envOf st cfg) (m.environment.getD []) := by
  simp only [merge_module_config]
  have hpcc := mergePostCreate_frame
    (mergeFeatures (mergeEnvironment st (mergeMounts (mergeRunArgs cfg m) m) m).1
      (mergeEnvironment st (mergeMounts (mergeRunArgs cfg m) m) m).2 m).1
    (mergeFeatures (mergeEnvironment st (mergeMounts (mergeRunArgs cfg m) m) m).1
      (mergeEnvironment st (mergeMounts (mergeRunArgs cfg m) m) m).2 m).2 m
  have hfe := mergeFeatures_frame
    (mergeEnvironment st (mergeMounts (mergeRunArgs cfg m) m) m).1
    (mergeEnvironment st (mergeMounts (mergeRunArgs cfg m) m) m).2 m
  have step1 : envOf (mergePostCreate
      (mergeFeatures (mergeEnvironment st (mergeMounts (mergeRunArgs cfg m) m) m).1
        (mergeEnvironment st (mergeMounts (mergeRunArgs cfg m) m) m).2 m).1
      (mergeFeatures (mergeEnvironment st (mergeMounts (mergeRunArgs cfg m) m) m).1
        (mergeEnvironment st (mergeMounts (mergeRunArgs cfg m) m) m).2 m).2 m).1
      (mergePostCreate
      (mergeFeatures (mergeEnvironment st (mergeMounts (mergeRunArgs cfg m) m) m).1
        (mergeEnvironment st (mergeMounts (mergeRunArgs cfg m) m) m).2 m).1
      (mergeFeatures (mergeEnvironment st (mergeMounts (mergeRunArgs cfg m) m) m).1
        (mergeEnvironment st (mergeMounts (mergeRunArgs cfg m) m) m).2 m).2 m).2 =
      envOf (mergeEnvironment st (mergeMounts (mergeRunArgs cfg m) m) m).1
        (mergeEnvironment st (mergeMounts (mergeRunArgs cfg m) m) m).2 := by
    refine Eq.trans (envOf_congr _ _ _ _ (by rw [hpcc.1]) hpcc.2.2.2.1) ?_
    exact envOf_congr _ _ _ _ hfe.1 hfe.2.2.2.1
  rw [step1]
  have hmm := (mergeMounts_frame (mergeRunArgs cfg m) m).2.1
  have hra := (mergeRunArgs_frame cfg m).2.1
  have hwf2 : ∀ r, (mergeMounts (mergeRunArgs cfg m) m).remoteEnv = some r →
      r < st.envs.length := by
    intro r hr
    rw [hmm, hra] at hr
    exact wfConfig_env st cfg hwf r hr
  rw [mergeEnvironment_envOf st _ m hwf2]
  rw [envOf_congr st st _ cfg rfl (hmm.trans hra)]

theorem merge_module_config_feat (st : Store) (cfg : DCConfig) (m : Module)
    (hwf : wfConfig st cfg = true) :
    featOf (merge_module_config st cfg m).1 (merge_module_config st cfg m).2 =
      dupdate (featOf st cfg) (m.features.getD []) := by
  simp only [merge_module_config]
  have hpcc := mergePostCreate_frame
    (mergeFeatures (mergeEnvironment st (mergeMounts (mergeRunArgs cfg m) m) m).1
      (mergeEnvironment st (mergeMounts (mergeRunArgs cfg m) m) m).2 m).1
    (mergeFeatures (mergeEnvironment st (mergeMounts (mergeRunArgs cfg m) m) m).1
      (mergeEnvironment st (mergeMounts (mergeRunArgs cfg m) m) m).2 m).2 m
  have step1 : featOf (mergePostCreate
      (mergeFeatures (mergeEnvironment st (mergeMounts (mergeRunArgs cfg m) m) m).1
        (mergeEnvironment st (mergeMounts (mergeRunArgs cfg m) m) m).2 m).1
      (mergeFeatures (mergeEnvironment st (mergeMounts (mergeRunArgs cfg m) m) m).1
        (mergeEnvironment st (mergeMounts (mergeRunArgs cfg m) m) m).2 m).2 m).1
      (mergePostCreate
      (mergeFeatures (mergeEnvironment st (mergeMounts (mergeRunArgs cfg m) m) m).1
        (mergeEnvironment st (mergeMounts (mergeRunArgs cfg m) m) m).2 m).1
      (mergeFeatures (mergeEnvironment st (mergeMounts (mergeRunArgs cfg m) m) m).1
        (mergeEnvironment st (mergeMounts (mergeRunArgs cfg m) m) m).2 m).2 m).2 =
      featOf (mergeFeatures
        (mergeEnvironment st (mergeMounts (mergeRunArgs cfg m) m) m).1
        (mergeEnvironment st (mergeMounts (mergeRunArgs cfg m) m) m).2 m).1
        (mergeFeatures
        (mergeEnvironment st (mergeMounts (mergeRunArgs cfg m) m) m).1
        (mergeEnvironment st (mergeMounts (mergeRunArgs cfg m) m) m).2 m).2 :=
    featOf_congr _ _ _ _ (by rw [hpcc.1]) hpcc.2.2.2.2
  rw [step1]
  have henv := mergeEnvironment_frame st (mergeMounts (mergeRunArgs cfg m) m) m
  have hmm := (mergeMounts_frame (mergeRunArgs cfg m) m).2.2.1
  have hra := (mergeRunArgs_frame cfg m).2.2.1
  have hwf2 : ∀ r,
      (mergeEnvironment st (mergeMounts (mergeRunArgs cfg m) m) m).2.features =
        some r →
      r < (mergeEnvironment st (mergeMounts (mergeRunArgs cfg m) m) m).1.feats.length := by
    intro r hr
    rw [henv.2.2.2.1, hmm, hra] at hr
    rw [henv.1]
    exact wfConfig_feat st cfg hwf r hr
  rw [mergeFeatures_featOf _ _ m hwf2]
  rw [featOf_congr _ st _ cfg henv.1 ((henv.2.2.2.1.trans hmm).trans hra)]

theorem merge_module_config_pcc (st : Store) (cfg : DCConfig) (m : Module) :
    (m.post_create_commands = none →
      (merge_module_config st cfg m).2.postCreateCommand =
        cfg.postCreateCommand) ∧
    (∀ cmds, m.post_create_commands = some cmds →
      (merge_module_config st cfg m).2.postCreateCommand =
        some (if cfg.postCreateCommand.getD "" = "" then joinSep " && " cmds
          else cfg.postCreateCommand.getD "" ++ " && " ++
            joinSep " && " cmds)) := by
  have hchain : (mergeFeatures
      (mergeEnvironment st (mergeMounts (mergeRunArgs cfg m) m) m).1
      (mergeEnvironment st (mergeMounts (mergeRunArgs cfg m) m) m).2
      m).2.postCreateCommand = cfg.postCreateCommand := by
    rw [(mergeFeatures_frame _ _ m).2.2.2.2,
      (mergeEnvironment_frame _ _ m).2.2.2.2,
      (mergeMounts_frame _ m).2.2.2,
      (mergeRunArgs_frame _ m).2.2.2]
  constructor
  · intro h
    simp only [merge_module_config]
    rw [(mergePostCreate_command _ _ m).1 h, hchain]
  · intro cmds h
    simp only [merge_module_config]
    rw [(mergePostCreate_command _ _ m).2 cmds h, hchain]

theorem dget_isSome_iff_mem_keys {α : Type} (l : List (String × α))
    (k : String) :
    (dget l k).isSome = true ↔ k ∈ l.map (·.1) := by
  induction l with
  | nil => simp [dget]
  | cons a rest ih =>
    rw [dget_cons]
    cases h : a.1 == k with
    | true =>
      have : a.1 = k := by simpa using h
      simp [this]
    | false =>
      have : ¬ a.1 = k := by simpa using h
      simp only [Bool.false_eq_true, if_false, List.map_cons, List.mem_cons]
      rw [ih]
      constructor
      · exact Or.inr
      · rintro (h1 | h2)
        · exact absurd h1.symm (by simpa using h)
        · exact h2

/-- A throwaway default module for `Option.getD`; never observed, since
it is only used under a proof that the catalog lookup succeeds. -/
def emptyModule : Module := { description := "" }

theorem validate_modules_ok_of_known (names : List String)
    (h : ∀ n ∈ names, n ∈ BUILTIN_MODULES.map (·.1)) :
    validate_modules names = .ok names := by
  simp only [validate_modules]
  have hinv : names.filter
      (fun n => !(BUILTIN_MODULES.map (·.1)).contains n) = [] := by
    rw [List.filter_eq_nil_iff]
    intro n hn
    simp [h n hn]
  rw [hinv]
  rfl

theorem validate_modules_error_of_unknown (names : List String) (n : String)
    (hn : n ∈ names) (hnm : n ∉ BUILTIN_MODULES.map (·.1)) :
    ∃ msg, validate_modules names = .error msg := by
  simp only [validate_modules]
  have hmem : n ∈ names.filter
      (fun n => !(BUILTIN_MODULES.map (·.1)).contains n) := by
    rw [List.mem_filter]
    exact ⟨hn, by simpa using hnm⟩
  have hne : (names.filter
      (fun n => !(BUILTIN_MODULES.map (·.1)).contains n)).isEmpty = false := by
    cases h : (names.filter
        (fun n => !(BUILTIN_MODULES.map (·.1)).contains n)).isEmpty with
    | false => rfl
    | true =>
      rw [List.isEmpty_iff.mp h] at hmem
      cases hmem
  rw [hne]
  exact ⟨_, rfl⟩

theorem apply_foldlM_ok (names : List String)
    (h : ∀ n ∈ names, n ∈ BUILTIN_MODULES.map (·.1))
    (init : Store × DCConfig) :
    names.foldlM (fun acc name =>
      match get_module name with
      | .error e => (.error e : Except String (Store × DCConfig))
      | .ok m => .ok (merge_module_config acc.1 acc.2 m)) init =
    .ok (names.foldl (fun acc name =>
      merge_module_config acc.1 acc.2
        ((dget BUILTIN_MODULES name).getD emptyModule)) init) := by
  induction names generalizing init with
  | nil => rfl
  | cons a rest ih =>
    have ha : (dget BUILTIN_MODULES a).isSome = true :=
      (dget_isSome_iff_mem_keys _ a).mpr (h a (List.mem_cons_self _ _))
    obtain ⟨mo, hmo⟩ := Option.isSome_iff_exists.mp ha
    have hget : get_module a = .ok mo := by
      unfold get_module
      rw [hmo]
    rw [List.foldlM_cons, hget]
    show (rest.foldlM _ _) = _
    rw [ih (fun n hn => h n (List.mem_cons_of_mem _ hn))]
    rw [List.foldl_cons, hmo]
    rfl

/-- C9 (confirmed): applying modules is strictly additive and
order-dependent.  Per module: `run_args` and `mounts` are appended,
`environment` keys are merge-overwritten into `remoteEnv`, `features`
keys are merge-overwritten, and the `" && "`-joined module post-create
commands are appended after any already-present command text.  Applying
a list containing an unknown module name through
`apply_modules_to_devcontainer` is a fatal error (re-validation), and on
an all-known non-empty list it is exactly the in-order fold of the
single-module merge. -/
theorem apply_modules_spec (st : Store) (cfg : DCConfig) (m : Module)
    (names : List String) (hwf : wfConfig st cfg = true) :
    ((merge_module_config st cfg m).2.runArgs.getD [] =
      cfg.runArgs.getD [] ++ m.run_args.getD []) ∧
    ((merge_module_config st cfg m).2.mounts.getD [] =
      cfg.mounts.getD [] ++ m.mounts.getD []) ∧
    (envOf (merge_module_config st cfg m).1 (merge_module_config st cfg m).2 =
      dupdate (envOf st cfg) (m.environment.getD [])) ∧
    (featOf (merge_module_config st cfg m).1 (merge_module_config st cfg m).2 =
      dupdate (featOf st cfg) (m.features.getD [])) ∧
    (∀ cmds, m.post_create_commands = some cmds →
      (merge_module_config st cfg m).2.postCreateCommand =
        some (if cfg.postCreateCommand.getD "" = "" then joinSep " && " cmds
          else cfg.postCreateCommand.getD "" ++ " && " ++
            joinSep " && " cmds)) ∧
    (m.post_create_commands = none →
      (merge_module_config st cfg m).2.postCreateCommand =
        cfg.postCreateCommand) ∧
    ((∃ n ∈ names, n ∉ BUILTIN_MODULES.map (·.1)) →
      ∃ msg, apply_modules_to_devcontainer st cfg names = .error msg) ∧
    (names ≠ [] → (∀ n ∈ names, n ∈ BUILTIN_MODULES.map (·.1)) →
      apply_modules_to_devcontainer st cfg names =
        .ok (names.foldl (fun acc name =>
          merge_module_config acc.1 acc.2
            ((dget BUILTIN_MODULES name).getD emptyModule)) (st, cfg))) := by
  refine ⟨merge_module_config_runArgs st cfg m,
    merge_module_config_mounts st cfg m,
    merge_module_config_env st cfg m hwf,
    merge_module_config_feat st cfg m hwf,
    (merge_module_config_pcc st cfg m).2,
    (merge_module_config_pcc st cfg m).1, ?_, ?_⟩
  · rintro ⟨n, hn, hnm⟩
    have hne : names ≠ [] := by
      intro h0
      rw [h0] at hn
      cases hn
    have hie : names.isEmpty = false := by
      cases h0 : names with
      | nil => exact absurd h0 hne
      | cons a rest => rfl
    obtain ⟨msg, hmsg⟩ := validate_modules_error_of_unknown names n hn hnm
    unfold apply_modules_to_devcontainer
    rw [hie]
    simp only [Bool.false_eq_true, if_false]
    rw [hmsg]
    exact ⟨msg, rfl⟩
  · intro hne hall
    have hie : names.isEmpty = false := by
      cases h0 : names with
      | nil => exact absurd h0 hne
      | cons a rest => rfl
    unfold apply_modules_to_devcontainer
    rw [hie]
    simp only [Bool.false_eq_true, if_false]
    rw [validate_modules_ok_of_known names hall]
    exact apply_foldlM_ok names hall (st, cfg)

/-- Base store for the module-application scenarios: one existing
`remoteEnv` dict `\x7bA: 1\x7d`. -/
def stW : Store := ⟨[[("A", "1")]], []⟩

/-- Base configuration for the module-application scenarios: references
the existing `remoteEnv` dict and carries command text. -/
def cfgW : DCConfig :=
  { remoteEnv := some 0, postCreateCommand := some "base cmd" }

/-- Witness for C9: applying `[claude-code, docker-in-docker]` to the
concrete base succeeds and equals the in-order fold. -/
theorem apply_modules_spec_witness :
    apply_modules_to_devcontainer stW cfgW
        ["claude-code", "docker-in-docker"] =
      .ok ((["claude-code", "docker-in-docker"]).foldl (fun acc name =>
        merge_module_config acc.1 acc.2
          ((dget BUILTIN_MODULES name).getD emptyModule)) (stW, cfgW)) :=
  (apply_modules_spec stW cfgW emptyModule
    ["claude-code", "docker-in-docker"]
    (by decide)).2.2.2.2.2.2.2 (by decide) (by decide)

/-- C10 (confirmed): because `config = devcontainer_config.copy()` is a
shallow copy, when the base configuration already holds a
`remoteEnv` (resp. `features`) dict and the applied module defines
`environment` (resp. `features`), the merge updates that shared nested
dict in place: after the call, reading the base's reference in the
resulting store shows the module's entries merged in — the caller's
input object has absorbed them. -/
theorem merge_module_config_frame_effect (st : Store) (cfg : DCConfig)
    (m : Module) (hwf : wfConfig st cfg = true) :
    (∀ r env, cfg.remoteEnv = some r → m.environment = some env →
      (merge_module_config st cfg m).1.envs.getD r [] =
        dupdate (st.envs.getD r []) env) ∧
    (∀ r fts, cfg.features = some r → m.features = some fts →
      (merge_module_config st cfg m).1.feats.getD r [] =
        dupdate (st.feats.getD r []) fts) := by
  constructor
  · intro r env hr henv
    simp only [merge_module_config]
    have hout : (mergePostCreate
        (mergeFeatures (mergeEnvironment st (mergeMounts (mergeRunArgs cfg m) m) m).1
          (mergeEnvironment st (mergeMounts (mergeRunArgs cfg m) m) m).2 m).1
        (mergeFeatures (mergeEnvironment st (mergeMounts (mergeRunArgs cfg m) m) m).1
          (mergeEnvironment st (mergeMounts (mergeRunArgs cfg m) m) m).2 m).2
        m).1 = (mergeFeatures
          (mergeEnvironment st (mergeMounts (mergeRunArgs cfg m) m) m).1
          (mergeEnvironment st (mergeMounts (mergeRunArgs cfg m) m) m).2 m).1 :=
      (mergePostCreate_frame _ _ m).1
    rw [hout, (mergeFeatures_frame _ _ m).1]
    have hr2 : (mergeMounts (mergeRunArgs cfg m) m).remoteEnv = some r := by
      rw [(mergeMounts_frame _ m).2.1, (mergeRunArgs_frame _ m).2.1]
      exact hr
    exact (mergeEnvironment_baseWrite st _ m r env hr2
      (wfConfig_env st cfg hwf r hr) henv).1
  · intro r fts hr hfts
    simp only [merge_module_config]
    have hout : (mergePostCreate
        (mergeFeatures (mergeEnvironment st (mergeMounts (mergeRunArgs cfg m) m) m).1
          (mergeEnvironment st (mergeMounts (mergeRunArgs cfg m) m) m).2 m).1
        (mergeFeatures (mergeEnvironment st (mergeMounts (mergeRunArgs cfg m) m) m).1
          (mergeEnvironment st (mergeMounts (mergeRunArgs cfg m) m) m).2 m).2
        m).1 = (mergeFeatures
          (mergeEnvironment st (mergeMounts (mergeRunArgs cfg m) m) m).1
          (mergeEnvironment st (mergeMounts (mergeRunArgs cfg m) m) m).2 m).1 :=
      (mergePostCreate_frame _ _ m).1
    rw [hout]
    have henvf := mergeEnvironment_frame st (mergeMounts (mergeRunArgs cfg m) m) m
    have hr2 : (mergeEnvironment st (mergeMounts (mergeRunArgs cfg m) m) m).2.features =
        some r := by
      rw [henvf.2.2.2.1, (mergeMounts_frame _ m).2.2.1,
        (mergeRunArgs_frame _ m).2.2.1]
      exact hr
    have hlt2 : r < (mergeEnvironment st (mergeMounts (mergeRunArgs cfg m) m) m).1.feats.length := by
      rw [henvf.1]
      exact wfConfig_feat st cfg hwf r hr
    have := (mergeFeatures_baseWrite _ _ m r fts hr2 hlt2 hfts).1
    rw [this, henvf.1]

/-- Witness for C10: applying the `claude-code` module to a base whose
`remoteEnv` dict is `\x7bA: 1\x7d` leaves, at the base's reference, the
dict updated in place with `CLAUDE_CODE_ENABLED`. -/
theorem merge_module_config_frame_effect_witness :
    (merge_module_config stW cfgW
        ((dget BUILTIN_MODULES "claude-code").getD emptyModule)).1.envs.getD 0 [] =
      dupdate (stW.envs.getD 0 []) [("CLAUDE_CODE_ENABLED", "true")] :=
  (merge_module_config_frame_effect stW cfgW
    ((dget BUILTIN_MODULES "claude-code").getD emptyModule)
    (by decide)).1 0 [("CLAUDE_CODE_ENABLED", "true")] rfl (by decide)

end Devenv
